import Mathlib

/-
Verification of the g80-layouts command-line tool (main.go): the layout
cache, the fetch-and-cache resolver getLayout, the deduplication loop in
main, and the offset/limit selection window.

Modelling conventions:
  * JSON documents are modelled as an inductive AST (Json). The textual
    serialization layer of encoding/json is injective on this AST and is
    treated as the identity; json.Marshal and json.Unmarshal are modelled
    at the AST level.
  * A Go byte body that is not syntactically valid JSON is modelled as
    Option Json = none: json.Unmarshal validates the whole input first
    (checkValid) and leaves the destination untouched on a syntax error.
  * Both call sites of json.Unmarshal in main.go (readCache and getLayout)
    discard the returned error, so decoding is modelled as a total,
    zero-filling function, exactly the observable behaviour at those call
    sites: a missing or type-mismatched field leaves the Go zero value in
    place.
  * A Go panic is modelled as Option ... = none.
  * The Go map cache is modelled as an association list with
    insert-or-overwrite semantics (storePut) and lookup (storeGet).
-/

/-- JSON documents as an abstract syntax tree. Numbers are modelled as
integers, which covers every numeric field of the Layout struct (Date is
an int64). -/
inductive Json where
  | null : Json
  | bool : Bool → Json
  | num : Int → Json
  | str : String → Json
  | arr : List Json → Json
  | obj : List (String × Json) → Json

/-- The nested layout_meta struct of the Go Layout type, field for field. -/
structure LayoutMeta where
  UUID : String
  Date : Int
  Creator : String
  ParentUUID : String
  FirmwareAPIVersion : String
  Title : String
  Notes : String
  Tags : List String
  Unlisted : Bool
  Deleted : Bool
  Compiled : Bool
  Searchable : Bool
deriving DecidableEq

/-- The Go Layout struct: metadata plus the two opaque payloads Config and
CompilerInput, which are typed any in Go and modelled as generic JSON
values as they merely round-trip through the cache. -/
structure Layout where
  Metadata : LayoutMeta
  Config : Json
  CompilerInput : Json

/-- The zero value of the Go LayoutMeta struct. -/
def zeroMeta : LayoutMeta :=
  { UUID := "", Date := 0, Creator := "", ParentUUID := "",
    FirmwareAPIVersion := "", Title := "", Notes := "", Tags := [],
    Unlisted := false, Deleted := false, Compiled := false,
    Searchable := false }

/-- The zero value of the Go Layout struct: a nil interface marshals to
null, a nil slice to null as well, so the opaque payloads are Json.null
and Tags is the empty list. -/
def zeroLayout : Layout :=
  { Metadata := zeroMeta, Config := Json.null, CompilerInput := Json.null }

/-- SemanticHash from main.go: fmt.Sprintf with a percent-s dash
percent-s pattern over Title and Creator. -/
def Layout.SemanticHash (l : Layout) : String :=
  l.Metadata.Title ++ "-" ++ l.Metadata.Creator

/-- The in-memory cache, a Go map from layout identifier to Layout,
modelled as an association list. -/
abbrev Store := List (String × Layout)

/-- Go map read: cache[uid]. First matching key wins; a Go map never holds
a duplicate key so the two agree on every reachable store. -/
def storeGet : Store → String → Option Layout
  | [], _ => none
  | (k, v) :: rest, uid => if k = uid then some v else storeGet rest uid

/-- Go map write: cache[uid] = v, insert or overwrite. -/
def storePut : Store → String → Layout → Store
  | [], k, v => [(k, v)]
  | (k2, v2) :: rest, k, v =>
      if k2 = k then (k, v) :: rest else (k2, v2) :: storePut rest k v

/-- Field lookup inside a decoded JSON object, as the json package matches
struct tags against object keys. -/
def lookupField (k : String) : List (String × Json) → Option Json
  | [] => none
  | (k2, v) :: rest => if k2 = k then some v else lookupField k rest

/-- Decoding a JSON value into a Go string field: anything but a string
leaves the zero value. -/
def jStr : Json → Option String
  | .str s => some s
  | _ => none

/-- Decoding a JSON value into a Go int64 field. -/
def jInt : Json → Option Int
  | .num n => some n
  | _ => none

/-- Decoding a JSON value into a Go bool field. -/
def jBool : Json → Option Bool
  | .bool b => some b
  | _ => none

/-- Decoding a JSON value into a Go string slice: a non-array yields the
zero (nil) slice, and a non-string element leaves the zero string at its
position, as the json decoder records the error and keeps going. -/
def jStrArr : Json → List String
  | .arr xs => xs.map (fun j => (jStr j).getD "")
  | _ => []

/-- Unmarshalling the layout_meta object: every field is looked up by its
json tag; missing or mismatched fields keep the Go zero value, which is
the behaviour seen by callers that discard the Unmarshal error. -/
def decodeMeta (j : Json) : LayoutMeta :=
  match j with
  | .obj f =>
      { UUID := ((lookupField "uuid" f).bind jStr).getD ""
        Date := ((lookupField "date" f).bind jInt).getD 0
        Creator := ((lookupField "creator" f).bind jStr).getD ""
        ParentUUID := ((lookupField "parent_uuid" f).bind jStr).getD ""
        FirmwareAPIVersion :=
          ((lookupField "firmware_api_version" f).bind jStr).getD ""
        Title := ((lookupField "title" f).bind jStr).getD ""
        Notes := ((lookupField "notes" f).bind jStr).getD ""
        Tags := ((lookupField "tags" f).map jStrArr).getD []
        Unlisted := ((lookupField "unlisted" f).bind jBool).getD false
        Deleted := ((lookupField "deleted" f).bind jBool).getD false
        Compiled := ((lookupField "compiled" f).bind jBool).getD false
        Searchable := ((lookupField "searchable" f).bind jBool).getD false }
  | _ => zeroMeta

/-- Unmarshalling a whole Layout document: the layout_meta object plus the
two opaque payloads, which decode into a Go any as the generic JSON value
itself (absent keys leave the nil interface, i.e. null). -/
def decodeLayout (j : Json) : Layout :=
  match j with
  | .obj f =>
      { Metadata := decodeMeta ((lookupField "layout_meta" f).getD Json.null)
        Config := (lookupField "config" f).getD Json.null
        CompilerInput := (lookupField "compiler_input" f).getD Json.null }
  | _ => zeroLayout

/-- Marshalling the layout_meta struct, fields in declaration order with
their json tags, as encoding/json does. -/
def encodeMeta (m : LayoutMeta) : Json :=
  Json.obj
    [("uuid", Json.str m.UUID),
     ("date", Json.num m.Date),
     ("creator", Json.str m.Creator),
     ("parent_uuid", Json.str m.ParentUUID),
     ("firmware_api_version", Json.str m.FirmwareAPIVersion),
     ("title", Json.str m.Title),
     ("notes", Json.str m.Notes),
     ("tags", Json.arr (m.Tags.map Json.str)),
     ("unlisted", Json.bool m.Unlisted),
     ("deleted", Json.bool m.Deleted),
     ("compiled", Json.bool m.Compiled),
     ("searchable", Json.bool m.Searchable)]

/-- Marshalling a Layout value. -/
def encodeLayout (l : Layout) : Json :=
  Json.obj
    [("layout_meta", encodeMeta l.Metadata),
     ("config", l.Config),
     ("compiler_input", l.CompilerInput)]

/-- Unmarshalling the cache file into the map from identifier to Layout:
a non-object document leaves the map untouched (empty), since the
Unmarshal error is discarded in readCache. -/
def decodeCache (j : Json) : Store :=
  match j with
  | .obj f => f.map (fun kv => (kv.1, decodeLayout kv.2))
  | _ => []

/-- Marshalling the cache map, one object key per identifier. -/
def encodeCache (s : Store) : Json :=
  Json.obj (s.map (fun kv => (kv.1, encodeLayout kv.2)))

/-- Outcome of ioutil.ReadFile on the cache path in readCache. The
content constructor carries the bytes read: none when they are not
syntactically valid JSON. -/
inductive ReadResult where
  | notExist : ReadResult
  | readErr : ReadResult
  | content : Option Json → ReadResult

/-- The readCache function of main.go. A read error other than
fs.ErrNotExist panics (none). A missing file leaves the cache empty. The
json.Unmarshal error is discarded, so a corrupt file also leaves the
cache empty and the process continues. -/
def readCache (r : ReadResult) : Option Store :=
  match r with
  | .readErr => none
  | .notExist => some []
  | .content none => some []
  | .content (some j) => some (decodeCache j)

/-- The writeCache function of main.go, projected to the JSON document it
writes: json.Marshal of the cache map. A disk write failure is logged and
swallowed and does not change the document, so it is not modelled. -/
def writeCache (s : Store) : Json :=
  encodeCache s

/-- Outcome of the network round trip in getLayout: transportErr covers a
failing http.Get or io.ReadAll (either panics); body carries the response
bytes, none when they are not syntactically valid JSON. -/
inductive FetchResult where
  | transportErr : FetchResult
  | body : Option Json → FetchResult

/-- The result of json.Unmarshal of the response body into an empty
Layout, with the error discarded as in getLayout: an invalid body leaves
the zero value. -/
def unmarshalLayout (b : Option Json) : Layout :=
  match b with
  | none => zeroLayout
  | some j => decodeLayout j

/-- The getLayout function of main.go, with the network modelled as a
fetch oracle. Returns none on panic, otherwise the layout, the updated
cache and the number of network fetches performed. On a hit the cached
record is returned with no fetch; on a miss one fetch happens, a
transport error panics, and the unmarshalled result (zero-filled on a
parse failure) is stored and returned. -/
def getLayout (fetch : String → FetchResult) (cache : Store) (uid : String) :
    Option (Layout × Store × Nat) :=
  match storeGet cache uid with
  | some l => some (l, cache, 0)
  | none =>
      match fetch uid with
      | .transportErr => none
      | .body b =>
          let result := unmarshalLayout b
          some (result, storePut cache uid result, 1)

/-- The slice expression uids[offset : offset+limit] in main.go, over Go
ints. Go requires 0 le offset le offset+limit le cap(uids) and panics
(none) otherwise; the capacity of the decoded identifier slice is
modelled as its length. -/
def goSliceWindow (uids : List String) (offset limit : Int) :
    Option (List String) :=
  if 0 ≤ offset ∧ 0 ≤ limit ∧ offset + limit ≤ uids.length then
    some ((uids.drop offset.toNat).take limit.toNat)
  else
    none

/-- Modelled from the spec: the selection window of section 4.4, skip the
first offset identifiers then take at most limit of the remainder, total
on every input. Stated for comparison with goSliceWindow. -/
def specWindow (uids : List String) (offset limit : Nat) : List String :=
  (uids.drop offset).take limit

/-- The deduplication pass of the main loop: seen is the set of semantic
hashes of the records emitted so far (the seenLayouts map); a record is
emitted exactly when its hash is not in seen, and its hash is then added. -/
def dedupGo : List Layout → List String → List Layout
  | [], _ => []
  | l :: ls, seen =>
      let h := l.SemanticHash
      if h ∈ seen then dedupGo ls seen
      else l :: dedupGo ls (h :: seen)

/-- The Deduplicator of the main loop: with redupe set every record is
appended unconditionally; otherwise the first-occurrence filter runs with
an initially empty seen set. -/
def filterLayouts (redupe : Bool) (records : List Layout) : List Layout :=
  if redupe then records else dedupGo records []

/-- Modelled from the spec, section 4.3: the stable first-occurrence-wins
distinct-by-key filter. The head of the input is always emitted (no prior
record was emitted at all), every later record whose semantic key equals
the head is dropped (the head is a previously emitted record with an
equal key), and the recursion continues on the records whose keys differ
from every previously emitted record. A record is therefore emitted if
and only if no previously emitted record had an equal semantic key.
Stated for comparison with the dedupGo loop of main.go. -/
def specDedup : List Layout → List Layout
  | [] => []
  | a :: l =>
      a :: specDedup (l.filter (fun b => b.SemanticHash ≠ a.SemanticHash))
termination_by l => l.length
decreasing_by
  simp only [List.length_cons]
  exact Nat.lt_succ_of_le (List.length_filter_le _ _)

/-- Concrete record with title a-b and creator c, used for the hash
collision scenario. -/
def layoutA : Layout :=
  { Metadata := { zeroMeta with Title := "a-b", Creator := "c" },
    Config := Json.null, CompilerInput := Json.null }

/-- Concrete record with title a and creator b-c: a different
(title, creator) pair with the same semantic hash as layoutA. -/
def layoutB : Layout :=
  { Metadata := { zeroMeta with Title := "a", Creator := "b-c" },
    Config := Json.null, CompilerInput := Json.null }

theorem storeGet_storePut (s : Store) (k : String) (v : Layout) :
    storeGet (storePut s k v) k = some v := by
  induction s with
  | nil => simp [storePut, storeGet]
  | cons kv rest ih =>
      by_cases h : kv.1 = k
      · simp [storePut, storeGet, h]
      · simp [storePut, storeGet, h, ih]

theorem dedupGo_sublist (l : List Layout) (seen : List String) :
    (dedupGo l seen).Sublist l := by
  induction l generalizing seen with
  | nil => simp [dedupGo]
  | cons a l ih =>
      by_cases h : a.SemanticHash ∈ seen
      · simp only [dedupGo, if_pos h]
        exact (ih seen).cons a
      · simp only [dedupGo, if_neg h]
        exact (ih (a.SemanticHash :: seen)).cons₂ a

theorem dedupGo_not_seen (l : List Layout) (seen : List String) :
    ∀ r ∈ dedupGo l seen, r.SemanticHash ∉ seen := by
  induction l generalizing seen with
  | nil => simp [dedupGo]
  | cons a l ih =>
      by_cases h : a.SemanticHash ∈ seen
      · simp only [dedupGo, if_pos h]
        exact ih seen
      · simp only [dedupGo, if_neg h]
        intro r hr
        rcases List.mem_cons.mp hr with heq | hmem
        · exact heq ▸ h
        · have := ih (a.SemanticHash :: seen) r hmem
          exact fun hs => this (List.mem_cons_of_mem _ hs)

theorem dedupGo_pairwise (l : List Layout) (seen : List String) :
    (dedupGo l seen).Pairwise (fun a b => a.SemanticHash ≠ b.SemanticHash) := by
  induction l generalizing seen with
  | nil => simp [dedupGo]
  | cons a l ih =>
      by_cases h : a.SemanticHash ∈ seen
      · simp only [dedupGo, if_pos h]
        exact ih seen
      · simp only [dedupGo, if_neg h]
        refine List.Pairwise.cons ?_ (ih (a.SemanticHash :: seen))
        intro b hb heq
        have := dedupGo_not_seen l (a.SemanticHash :: seen) b hb
        exact this (heq ▸ List.mem_cons_self _ _)

theorem dedupGo_eq_self (l : List Layout) (seen : List String)
    (hp : l.Pairwise (fun a b => a.SemanticHash ≠ b.SemanticHash))
    (hs : ∀ r ∈ l, r.SemanticHash ∉ seen) : dedupGo l seen = l := by
  induction l generalizing seen with
  | nil => rfl
  | cons a l ih =>
      have ha : a.SemanticHash ∉ seen := hs a (List.mem_cons_self _ _)
      simp only [dedupGo, if_neg ha]
      congr 1
      refine ih (a.SemanticHash :: seen) (List.Pairwise.of_cons hp) ?_
      intro r hr hmem
      rcases List.mem_cons.mp hmem with heq | hseen
      · exact (List.pairwise_cons.mp hp).1 r hr heq.symm
      · exact hs r (List.mem_cons_of_mem _ hr) hseen

/-- Fetch oracle whose every response body is not valid JSON. -/
def badFetch : String → FetchResult := fun _ => FetchResult.body none

/-- Fetch oracle whose every request fails in transport. -/
def transportFetch : String → FetchResult := fun _ => FetchResult.transportErr

/-- C1: false of the code. The slice uids[offset : offset+limit] in
main.go is evaluated with offset 3 and limit 10 over three identifiers:
Go panics on the out-of-range bounds, while the window of the spec is
empty. The default limit of 10 already panics on any response with fewer
than offset+10 identifiers. -/
theorem sliceWindow_panics_out_of_range :
    goSliceWindow ["a", "b", "c"] 3 10 = none ∧
    specWindow ["a", "b", "c"] 3 10 = [] := by
  constructor
  · simp [goSliceWindow]
  · rfl

/-- C7: with redupe set, the Deduplicator is the identity: every record
is appended unconditionally in the main loop. -/
theorem dedup_true_id (records : List Layout) :
    filterLayouts true records = records := rfl

/-- C9: the semantic key concatenates title, a dash and creator into one
string, so the distinct pairs (a-b, c) and (a, b-c) collide on the key
a-b-c and the second record is dropped by the filter. -/
theorem semanticHash_collision :
    layoutA.SemanticHash = layoutB.SemanticHash ∧
    ¬ (layoutA.Metadata.Title = layoutB.Metadata.Title ∧
       layoutA.Metadata.Creator = layoutB.Metadata.Creator) ∧
    filterLayouts false [layoutA, layoutB] = [layoutA] := by
  refine ⟨by decide, by decide, ?_⟩
  rfl

/-- C4 counterexample: a cache file that exists but holds bytes that are
not valid JSON does not abort the process; readCache discards the
Unmarshal error and continues with an empty store. -/
theorem readCache_corrupt_not_fatal :
    readCache (ReadResult.content none) ≠ none ∧
    readCache (ReadResult.content none) = some [] := by
  exact ⟨by simp [readCache], rfl⟩

/-- C4 amended: a missing cache file yields the empty store without
error; a corrupt cache file also yields the empty store and the process
continues; only a read failure other than not-exist panics. -/
theorem readCache_policy :
    readCache ReadResult.notExist = some [] ∧
    readCache (ReadResult.content none) = some [] ∧
    readCache ReadResult.readErr = none :=
  ⟨rfl, rfl, rfl⟩

/-- C3 counterexample: on a cache miss whose response body fails to
parse, getLayout does not panic; the Unmarshal error is discarded and
the run continues with the zero-valued record. -/
theorem getLayout_parse_error_not_fatal :
    getLayout badFetch [] "u" ≠ none ∧
    getLayout badFetch [] "u" = some (zeroLayout, [("u", zeroLayout)], 1) := by
  exact ⟨by simp [getLayout, storeGet, badFetch, unmarshalLayout], rfl⟩

/-- C3 amended: during a cache-miss resolution, a transport error (a
failing http.Get or io.ReadAll) panics and aborts the run, but a parse
error of the fetched metadata does not: the zero-valued record is stored
and returned and the run continues. -/
theorem getLayout_error_policy (f g : String → FetchResult) (cache : Store)
    (uid : String) (hmiss : storeGet cache uid = none)
    (ht : f uid = FetchResult.transportErr)
    (hp : g uid = FetchResult.body none) :
    getLayout f cache uid = none ∧
    getLayout g cache uid = some (zeroLayout, storePut cache uid zeroLayout, 1) := by
  constructor
  · simp [getLayout, hmiss, ht]
  · simp [getLayout, hmiss, hp, unmarshalLayout]

/-- Witness for the amended C3 at a concrete store and identifier. -/
theorem getLayout_error_policy_witness :
    storeGet ([] : Store) "u" = none ∧
    transportFetch "u" = FetchResult.transportErr ∧
    badFetch "u" = FetchResult.body none ∧
    (getLayout transportFetch [] "u" = none ∧
     getLayout badFetch [] "u" = some (zeroLayout, storePut [] "u" zeroLayout, 1)) :=
  ⟨rfl, rfl, rfl, getLayout_error_policy transportFetch badFetch [] "u" rfl rfl rfl⟩

/-- C10: a cache miss whose response body is not valid JSON stores the
zero-valued record under the requested identifier and returns it, with
exactly one fetch and no panic. -/
theorem getLayout_invalid_body_zero_record (fetch : String → FetchResult)
    (cache : Store) (uid : String) (hmiss : storeGet cache uid = none)
    (hbody : fetch uid = FetchResult.body none) :
    getLayout fetch cache uid = some (zeroLayout, storePut cache uid zeroLayout, 1) ∧
    storeGet (storePut cache uid zeroLayout) uid = some zeroLayout := by
  constructor
  · simp [getLayout, hmiss, hbody, unmarshalLayout]
  · exact storeGet_storePut cache uid zeroLayout

/-- Witness for C10 at a concrete store and identifier. -/
theorem getLayout_invalid_body_zero_record_witness :
    storeGet ([] : Store) "w" = none ∧
    badFetch "w" = FetchResult.body none ∧
    (getLayout badFetch [] "w" = some (zeroLayout, storePut [] "w" zeroLayout, 1) ∧
     storeGet (storePut [] "w" zeroLayout) "w" = some zeroLayout) :=
  ⟨rfl, rfl, getLayout_invalid_body_zero_record badFetch [] "w" rfl rfl⟩

/-- C6: a hit returns the cached record with zero fetches and an
unchanged store; a miss with a delivered body performs exactly one fetch
and exactly one put of the resulting record, and resolving the same
identifier again against the updated store performs zero fetches. -/
theorem getLayout_miss_then_hit (fetch : String → FetchResult)
    (cache : Store) (uid : String) (b : Option Json)
    (hmiss : storeGet cache uid = none)
    (hfetch : fetch uid = FetchResult.body b) :
    (∀ (cache2 : Store) (l : Layout), storeGet cache2 uid = some l →
        getLayout fetch cache2 uid = some (l, cache2, 0)) ∧
    getLayout fetch cache uid =
      some (unmarshalLayout b, storePut cache uid (unmarshalLayout b), 1) ∧
    getLayout fetch (storePut cache uid (unmarshalLayout b)) uid =
      some (unmarshalLayout b, storePut cache uid (unmarshalLayout b), 0) := by
  refine ⟨?_, ?_, ?_⟩
  · intro cache2 l hl
    simp [getLayout, hl]
  · simp [getLayout, hmiss, hfetch]
  · simp [getLayout, storeGet_storePut]

/-- Witness for C6 at a concrete store, identifier and body. -/
theorem getLayout_miss_then_hit_witness :
    storeGet ([] : Store) "x" = none ∧
    badFetch "x" = FetchResult.body none ∧
    ((∀ (cache2 : Store) (l : Layout), storeGet cache2 "x" = some l →
        getLayout badFetch cache2 "x" = some (l, cache2, 0)) ∧
     getLayout badFetch [] "x" =
       some (unmarshalLayout none, storePut [] "x" (unmarshalLayout none), 1) ∧
     getLayout badFetch (storePut [] "x" (unmarshalLayout none)) "x" =
       some (unmarshalLayout none, storePut [] "x" (unmarshalLayout none), 0)) :=
  ⟨rfl, rfl, getLayout_miss_then_hit badFetch [] "x" none rfl rfl⟩

/-- Records with equal title and creator have equal semantic hashes. -/
theorem semanticHash_of_pair_eq (a b : Layout)
    (ht : a.Metadata.Title = b.Metadata.Title)
    (hc : a.Metadata.Creator = b.Metadata.Creator) :
    a.SemanticHash = b.SemanticHash := by
  simp [Layout.SemanticHash, ht, hc]

theorem dedupGo_eq_specDedup_aux (n : Nat) :
    ∀ (l : List Layout), l.length ≤ n → ∀ (seen : List String),
      dedupGo l seen =
        specDedup (l.filter (fun b => b.SemanticHash ∉ seen)) := by
  induction n with
  | zero =>
      intro l hl seen
      have hnil : l = [] := List.length_eq_zero.mp (Nat.le_zero.mp hl)
      subst hnil
      simp [dedupGo, specDedup]
  | succ n ih =>
      intro l hl seen
      cases l with
      | nil => simp [dedupGo, specDedup]
      | cons a l =>
          have hlen : l.length ≤ n := Nat.le_of_succ_le_succ hl
          by_cases ha : a.SemanticHash ∈ seen
          · rw [List.filter_cons_of_neg (by simp [ha])]
            simp only [dedupGo, if_pos ha]
            exact ih l hlen seen
          · rw [List.filter_cons_of_pos (by simp [ha])]
            simp only [dedupGo, if_neg ha]
            rw [specDedup]
            congr 1
            rw [ih l hlen (a.SemanticHash :: seen), List.filter_filter]
            congr 1
            apply List.filter_congr
            intro b _
            by_cases hb1 : b.SemanticHash = a.SemanticHash
            · simp [hb1]
            · by_cases hb2 : b.SemanticHash ∈ seen <;> simp [hb1, hb2]

/-- C2: with redupe unset, the Deduplicator equals the spec-side
first-occurrence-wins filter, so each record is emitted if and only if no
previously emitted record in the same call had an equal semantic key;
moreover the output is a subsequence of the input in original order, its
records have pairwise distinct semantic hashes, hence no two output
records share a (title, creator) pair, and the empty input yields the
empty output. -/
theorem dedup_false_sound (l : List Layout) :
    filterLayouts false l = specDedup l ∧
    (filterLayouts false l).Sublist l ∧
    (filterLayouts false l).Pairwise
      (fun a b => a.SemanticHash ≠ b.SemanticHash) ∧
    (filterLayouts false l).Pairwise
      (fun a b => ¬ (a.Metadata.Title = b.Metadata.Title ∧
                     a.Metadata.Creator = b.Metadata.Creator)) ∧
    filterLayouts false ([] : List Layout) = [] := by
  refine ⟨?_, dedupGo_sublist l [], dedupGo_pairwise l [], ?_, rfl⟩
  · have h := dedupGo_eq_specDedup_aux l.length l (Nat.le_refl _) []
    simpa [filterLayouts, List.filter_true] using h
  · refine (dedupGo_pairwise l []).imp ?_
    intro a b hne hpair
    exact hne (semanticHash_of_pair_eq a b hpair.1 hpair.2)

/-- C8: with redupe unset, the Deduplicator is idempotent; its output has
pairwise distinct semantic hashes, so a second pass keeps every record. -/
theorem dedup_false_idempotent (l : List Layout) :
    filterLayouts false (filterLayouts false l) = filterLayouts false l := by
  simp only [filterLayouts, if_neg (Bool.false_ne_true)]
  exact dedupGo_eq_self (dedupGo l []) [] (dedupGo_pairwise l [])
    (fun r _ => List.not_mem_nil _)

theorem jStrArr_round (ts : List String) :
    jStrArr (Json.arr (ts.map Json.str)) = ts := by
  induction ts with
  | nil => rfl
  | cons t ts ih => simpa [jStrArr, jStr] using ih

theorem decodeMeta_encodeMeta (m : LayoutMeta) :
    decodeMeta (encodeMeta m) = m := by
  simp [decodeMeta, encodeMeta, lookupField, jStr, jInt, jBool, jStrArr_round]

theorem decodeLayout_encodeLayout (l : Layout) :
    decodeLayout (encodeLayout l) = l := by
  simp [decodeLayout, encodeLayout, lookupField, decodeMeta_encodeMeta]

theorem decodeCache_encodeCache (s : Store) :
    decodeCache (encodeCache s) = s := by
  induction s with
  | nil => rfl
  | cons kv rest ih =>
      simp only [decodeCache, encodeCache, List.map_cons,
        decodeLayout_encodeLayout] at *
      exact congrArg (List.cons (kv.1, kv.2)) ih

/-- C5: writing the cache with writeCache and reading the written
document back with readCache reproduces the original store: the same
identifier keys bound to records with the same field values, with no
panic. -/
theorem cache_roundtrip (s : Store) :
    readCache (ReadResult.content (some (writeCache s))) = some s := by
  simp [readCache, writeCache, decodeCache_encodeCache]
